import Mathlib

/-!
# Verification of the lot risk-panel core (`app.py`)

Shallow embedding of the quality-control risk pipeline:
column normalization and validation (`load_data`), per-lot trend
(`slope_days`), per-lot aggregation (`build_lot_report`), risk scoring
(`score_row` and the `RISK_SKORU` column), classification (`label`) and
recommendation (`suggestion`).

Modelling conventions:
* Floating-point numbers are modelled by `ℚ` (the computations at issue
  are finite field operations, `min`/`max` and comparisons); the two
  square roots of the aggregator (`std`, the global reference std) live
  in `ℝ`.
* A pandas missing value (`NaN` from `to_numeric(errors="coerce")`,
  `NaT` from `to_datetime(errors="coerce")`, the `NaN` trend of
  `slope_days`) is modelled by `Option.none`.
* Timestamps are rationals counting seconds (the code converts
  differences of timestamps with `.dt.total_seconds()`).
-/

namespace RiskPanel

/-- `REQUIRED_COLS = ["LOT", "TARIH", "CEKME_DAYANIMI"]` (app.py line 14). -/
def REQUIRED_COLS : List String := ["LOT", "TARIH", "CEKME_DAYANIMI"]

/-- Python `str.upper` restricted to the characters that can occur in the
column names this app recognises: ASCII letters plus the Turkish letters
of the synonym table. -/
def pyUpperChar (c : Char) : Char :=
  if c = 'ç' then 'Ç'
  else if c = 'ğ' then 'Ğ'
  else if c = 'ı' then 'I'
  else if c = 'ö' then 'Ö'
  else if c = 'ş' then 'Ş'
  else if c = 'ü' then 'Ü'
  else c.toUpper

/-- Python `str.strip()`: remove whitespace from both ends of a string,
written structurally on the character list. -/
def pyStrip (s : String) : String :=
  ⟨((s.data.dropWhile Char.isWhitespace).reverse.dropWhile Char.isWhitespace).reverse⟩

/-- `str(c).strip().upper()` applied to a column name (app.py line 22). -/
def normColName (s : String) : String :=
  ⟨(pyStrip s).data.map pyUpperChar⟩

/-- The fixed synonym table `col_map` (app.py lines 24–31). -/
def col_map : List (String × String) :=
  [("ÇEKME_DAYANIMI", "CEKME_DAYANIMI"),
   ("CEKME DAYANIMI", "CEKME_DAYANIMI"),
   ("TARİH", "TARIH"),
   ("LOT NO", "LOT"),
   ("PARTI", "LOT"),
   ("PARTİ", "LOT")]

/-- `df.rename(columns=col_map)` on a single column name (app.py line 32). -/
def renameCol (c : String) : String :=
  match col_map.find? (fun p => p.1 == c) with
  | some p => p.2
  | none => c

/-- The column names after case/whitespace normalization and synonym
mapping (app.py lines 22 and 32). -/
def normalizeCols (cols : List String) : List String :=
  (cols.map normColName).map renameCol

/-- `missing = [c for c in REQUIRED_COLS if c not in df.columns]`
(app.py line 34). -/
def missingCols (cols : List String) : List String :=
  REQUIRED_COLS.filter (fun c => !(normalizeCols cols).contains c)

/-- The data carried by the `ValueError` of app.py line 36: the missing
canonical columns and the full required set. -/
structure MissingColumnsError where
  missing : List String
  required : List String
deriving Repr, DecidableEq

/-- The required canonical columns that more than one raw header resolves
to after normalization and synonym mapping — e.g. headers `LOT` and
`PARTI` both become `LOT`.  pandas permits duplicate column labels, so
the check of app.py line 34 does not notice them. -/
def dupRequiredCols (cols : List String) : List String :=
  REQUIRED_COLS.filter (fun c => decide (1 < (normalizeCols cols).count c))

/-- The ways `load_data` can raise.  `missingColumns` is the explicit
`ValueError` of app.py line 36.  `duplicateRequiredColumn` models the
untyped pandas exception of app.py lines 39–43 when a required canonical
label is duplicated after renaming: `df[c]` is then a two-column
DataFrame, so `pd.to_datetime` (line 39) or `pd.to_numeric` (line 40)
raises for a duplicated `TARIH`/`CEKME_DAYANIMI`, and `.astype(str).str`
(line 43) raises for a duplicated `LOT`. -/
inductive LoadError where
  | missingColumns (e : MissingColumnsError) : LoadError
  | duplicateRequiredColumn : LoadError
deriving Repr, DecidableEq

/-- A raw row after the per-cell coercions of app.py lines 39–40: each
required field either coerced successfully (`some`) or missing/unparseable
(`none`).  `lot` holds the cell's string rendering when the cell is
non-null (`astype(str)` happens on line 43, after the null check). -/
structure RawRow where
  lot : Option String
  tarih : Option ℚ
  dayanim : Option ℚ
deriving Repr, DecidableEq

/-- A clean row: trimmed lot identifier, timestamp (seconds), strength. -/
structure CleanRow where
  lot : String
  tarih : ℚ
  dayanim : ℚ
deriving Repr, DecidableEq

/-- `df.dropna(subset=["LOT", "TARIH", "CEKME_DAYANIMI"])` followed by
`df["LOT"] = df["LOT"].astype(str).str.strip()` on one row (app.py
lines 42–43): the row survives iff all three fields are present, and the
surviving lot identifier is trimmed. -/
def coerceRow (r : RawRow) : Option CleanRow :=
  match r.lot, r.tarih, r.dayanim with
  | some l, some t, some s => some ⟨pyStrip l, t, s⟩
  | _, _, _ => none

/-- Python's string `<`: strict lexicographic comparison of the code
point sequences, which is the order pandas uses on the `LOT` column. -/
def lexLt : List Char → List Char → Bool
  | _, [] => false
  | [], _ :: _ => true
  | a :: as, b :: bs => if a < b then true else if b < a then false else lexLt as bs

/-- `a` is strictly before `b` as a lot identifier. -/
def lotLt (a b : String) : Bool := lexLt a.data b.data

/-- The sort key order of `df.sort_values(["LOT", "TARIH"])` (app.py
line 45): lexicographic on (LOT, TARIH).  pandas multi-column
`sort_values` is a stable lexicographic sort. -/
def rowLE (a b : CleanRow) : Bool :=
  lotLt a.lot b.lot || (decide (a.lot = b.lot) && decide (a.tarih ≤ b.tarih))

/-- `load_data` from app.py lines 16–45, after the external file reader
has produced the header list and the coerced cells: validate the
canonical columns (line 34–36), then run the per-column coercions —
which abort when a required canonical label is duplicated (lines 39–43),
— then drop incomplete rows, trim lot identifiers and stable-sort by
(LOT, TARIH). -/
def load_data (cols : List String) (rows : List RawRow) :
    Except LoadError (List CleanRow) :=
  let missing := missingCols cols
  if missing.isEmpty then
    if (dupRequiredCols cols).isEmpty then
      .ok (List.mergeSort (rows.filterMap coerceRow) rowLE)
    else
      .error .duplicateRequiredColumn
  else
    .error (.missingColumns ⟨missing, REQUIRED_COLS⟩)

/-! ## Trend (`slope_days`, app.py lines 47–55) -/

/-- Minimum of a list of rationals (`d["TARIH"].min()`); `0` on the empty
list, which `slope_days` never hits. -/
def listMin (l : List ℚ) : ℚ :=
  match l with
  | [] => 0
  | t :: ts => ts.foldl min t

/-- `x = (d["TARIH"] - d["TARIH"].min()).dt.total_seconds() / 86400.0`
(app.py line 51): elapsed days since the lot's first timestamp. -/
def elapsedDays (ts : List ℚ) : List ℚ :=
  ts.map (fun t => (t - listMin ts) / 86400)

/-- The absolute tolerance of `np.allclose(x, 0)` (app.py line 53):
`|xᵢ - 0| ≤ atol + rtol·|0| = 1e-8`. -/
def allcloseAtol : ℚ := 1 / 100000000

/-- `np.allclose(x, 0)` with the default tolerances, against the constant
array `0` (app.py line 53). -/
def allcloseZero (xs : List ℚ) : Bool :=
  xs.all (fun x => decide (|x| ≤ allcloseAtol))

/-- The degree-1 least-squares slope returned by `np.polyfit(x, y, 1)[0]`
(app.py line 55): `(n·Σxy − Σx·Σy) / (n·Σx² − (Σx)²)`. -/
def polyfitSlope (xs ys : List ℚ) : ℚ :=
  let n : ℚ := xs.length
  let sx := xs.sum
  let sy := ys.sum
  let sxy := (List.zipWith (· * ·) xs ys).sum
  let sxx := (xs.map (fun x => x ^ 2)).sum
  (n * sxy - sx * sy) / (n * sxx - sx ^ 2)

/-- `slope_days` (app.py lines 47–55) on one lot's clean rows; `none`
models the `np.nan` returns. -/
def slope_days (d : List CleanRow) : Option ℚ :=
  if d.length < 2 then none
  else if allcloseZero (elapsedDays (d.map (·.tarih))) then none
  else some (polyfitSlope (elapsedDays (d.map (·.tarih))) (d.map (·.dayanim)))

/-! ## Aggregation (`build_lot_report`, app.py lines 57–82) -/

/-- Mean of a list of rationals (`g["CEKME_DAYANIMI"].agg(ORT="mean")`). -/
def listMean (l : List ℚ) : ℚ := l.sum / l.length

/-- Sample variance with the `n − 1` divisor, the square of pandas
`std(ddof=1)`. -/
def sampleVar (l : List ℚ) : ℚ :=
  (l.map (fun x => (x - listMean l) ^ 2)).sum / ((l.length : ℚ) - 1)

/-- pandas `Series.std(ddof=1)`: `NaN` (modelled `none`) on fewer than two
values, otherwise the square root of the sample variance. -/
noncomputable def sampleStd (l : List ℚ) : Option ℝ :=
  if l.length < 2 then none
  else some (Real.sqrt (sampleVar l))

/-- The aggregated `STD` column after `rep["STD"].fillna(0.0)` (app.py
lines 60–66 and 80): the sample std of the lot's strengths, with the
`N = 1` `NaN` replaced by `0.0`. -/
noncomputable def lotSTD (strengths : List ℚ) : ℝ :=
  (sampleStd strengths).getD 0

/-- `ref_std = float(df["CEKME_DAYANIMI"].std(ddof=1) if len(df) > 1 else 1.0)`
(app.py line 152). -/
noncomputable def refStd (strengths : List ℚ) : ℝ :=
  if strengths.length > 1 then (sampleStd strengths).getD 0 else 1

/-- `ref_mean = float(df["CEKME_DAYANIMI"].mean())` (app.py line 151). -/
def refMean (strengths : List ℚ) : ℚ := listMean strengths

/-! ## Scoring (`score_row`, app.py lines 84–107) -/

/-- The divisor `max(1.0, ref_std)` of the level penalty (app.py
line 94). -/
def levelDenom (ref_std : ℚ) : ℚ := max 1 ref_std

/-- The divisor `max(1e-6, ref_std)` of the variability penalty (app.py
line 97). -/
def varDenom (ref_std : ℚ) : ℚ := max (1 / 1000000) ref_std

/-- `score_row(r, ref_mean, ref_std, target_low)` (app.py lines 84–107)
on the fields of the lot-report row it reads: `ORT` (mean), `STD`,
`TREND_MPA_GUN` (`none` = `NaN`) and `N`.  `ref_mean` is a parameter of
the source function and is kept even though its body never reads it. -/
def score_row (ort std : ℚ) (trend : Option ℚ) (n : ℕ)
    (ref_mean ref_std target_low : ℚ) : ℚ :=
  let level_gap := max 0 (target_low - ort)
  let level_score := min 50 ((level_gap / levelDenom ref_std) * 15)
  let var_score := min 25 ((std / varDenom ref_std) * 10)
  let trend_score :=
    match trend with
    | none => 0
    | some tr => min 15 (max 0 (-tr) * 2)
  let n_score : ℚ := if n = 1 then 10 else if n = 2 then 5 else 0
  let score := level_score + var_score + trend_score + n_score
  max 0 (min 100 score)

/-- Round half to even on `ℚ`, the rounding of pandas `.round(0)`
(IEEE "banker's rounding", app.py line 155). -/
def roundHalfEven (q : ℚ) : ℤ :=
  if q - ⌊q⌋ < 1 / 2 then ⌊q⌋
  else if 1 / 2 < q - ⌊q⌋ then ⌊q⌋ + 1
  else if Even ⌊q⌋ then ⌊q⌋ else ⌊q⌋ + 1

/-- The `RISK_SKORU` column (app.py line 155):
`score_row(...)` then `.round(0).astype(int)`. -/
def riskSkoru (ort std : ℚ) (trend : Option ℚ) (n : ℕ)
    (ref_mean ref_std target_low : ℚ) : ℤ :=
  roundHalfEven (score_row ort std trend n ref_mean ref_std target_low)

/-! ## Classification and recommendation (app.py lines 109–125) -/

/-- `label(score)` (app.py lines 109–114), on the integer `RISK_SKORU`. -/
def label (score : ℤ) : String :=
  if score ≥ 60 then "RİSKLİ"
  else if score ≥ 30 then "İZLENMELİ"
  else "GÜVENLİ"

/-- `suggestion(n, score, trend)` (app.py lines 116–125); `trend = none`
models the `NaN` trend, so `not np.isnan(trend) and trend < -2` reads
"trend is defined and `< -2`". -/
def suggestion (n : ℕ) (score : ℤ) (trend : Option ℚ) : String :=
  if score ≥ 60 then
    if n = 1 then "Tek ölçüm: yeniden ölçüm + proses kontrol önerilir."
    else if (match trend with | some tr => decide (tr < -2) | none => false) then
      "Düşüş trendi: proses/ısıl işlem parametrelerini kontrol et, yeniden ölçüm yap."
    else "Yeniden ölçüm + proses kontrol önerilir."
  else if score ≥ 30 then
    "Takip önerilir (ek ölçüm planla, sapma artarsa aksiyon al)."
  else "Normal üretime devam."

/-! ## Spec-side scorer components (§4.3 of the spec)

These four definitions follow the specification's wording for the four
sub-scores, to be compared with the source-derived `score_row`. -/

/-- Spec §4.3: level penalty `min(50, (max(0, target_low − mean) / max(1, reference_std)) × 15)`. -/
def spec_levelPenalty (mean ref_std target_low : ℚ) : ℚ :=
  min 50 ((max 0 (target_low - mean) / max 1 ref_std) * 15)

/-- Spec §4.3: variability penalty `min(25, (std / max(1e-6, reference_std)) × 10)`. -/
def spec_varPenalty (std ref_std : ℚ) : ℚ :=
  min 25 ((std / max (1 / 1000000) ref_std) * 10)

/-- Spec §4.3: trend penalty, `0` when the trend is undefined, else
`min(15, max(0, −trend) × 2)`. -/
def spec_trendPenalty (trend : Option ℚ) : ℚ :=
  match trend with
  | none => 0
  | some tr => min 15 (max 0 (-tr) * 2)

/-- Spec §4.3: sample penalty, exactly 10 when `n = 1`, exactly 5 when
`n = 2`, else 0. -/
def spec_samplePenalty (n : ℕ) : ℚ :=
  if n = 1 then 10 else if n = 2 then 5 else 0

/-- The source scorer is exactly the clamped sum of the four spec
sub-scores. -/
lemma score_row_decomp (ort std : ℚ) (trend : Option ℚ) (n : ℕ)
    (ref_mean ref_std target_low : ℚ) :
    score_row ort std trend n ref_mean ref_std target_low =
      max 0 (min 100
        (spec_levelPenalty ort ref_std target_low + spec_varPenalty std ref_std +
          spec_trendPenalty trend + spec_samplePenalty n)) := rfl

/-! ## Rounding lemmas -/

lemma floor_le_roundHalfEven (q : ℚ) : ⌊q⌋ ≤ roundHalfEven q := by
  unfold roundHalfEven
  split_ifs <;> omega

lemma roundHalfEven_le_floor_add_one (q : ℚ) : roundHalfEven q ≤ ⌊q⌋ + 1 := by
  unfold roundHalfEven
  split_ifs <;> omega

lemma half_le_frac_of_roundHalfEven_ne_floor {q : ℚ}
    (h : roundHalfEven q ≠ ⌊q⌋) : 1 / 2 ≤ q - ⌊q⌋ := by
  unfold roundHalfEven at h
  split_ifs at h with h1 h2 h3
  · exact absurd rfl h
  · linarith
  · linarith
  · linarith

lemma roundHalfEven_mono {a b : ℚ} (h : a ≤ b) :
    roundHalfEven a ≤ roundHalfEven b := by
  rcases lt_or_eq_of_le (Int.floor_le_floor h) with hf | hf
  · calc roundHalfEven a ≤ ⌊a⌋ + 1 := roundHalfEven_le_floor_add_one a
      _ ≤ ⌊b⌋ := by omega
      _ ≤ roundHalfEven b := floor_le_roundHalfEven b
  · unfold roundHalfEven
    have hq : a - (⌊b⌋ : ℚ) ≤ b - (⌊b⌋ : ℚ) := by
      rw [← hf]; linarith
    rw [hf]
    split_ifs <;> first | omega | (exfalso; linarith)

/-! ## Score bounds -/

lemma score_row_nonneg (ort std : ℚ) (trend : Option ℚ) (n : ℕ)
    (ref_mean ref_std target_low : ℚ) :
    0 ≤ score_row ort std trend n ref_mean ref_std target_low := by
  rw [score_row_decomp]
  exact le_max_left _ _

lemma score_row_le_100 (ort std : ℚ) (trend : Option ℚ) (n : ℕ)
    (ref_mean ref_std target_low : ℚ) :
    score_row ort std trend n ref_mean ref_std target_low ≤ 100 := by
  rw [score_row_decomp]
  exact max_le (by norm_num) (min_le_left _ _)

/-! ## Claim theorems -/

/-- **C1.** Every `RISK_SKORU` value — `score_row` followed by the single
rounding of line 155 — is an integer in `[0, 100]`, for all lot
aggregates, reference statistics and thresholds (hence for every input
table yielding at least one clean row). -/
theorem risk_score_in_unit_interval (ort std : ℚ) (trend : Option ℚ) (n : ℕ)
    (ref_mean ref_std target_low : ℚ) :
    0 ≤ riskSkoru ort std trend n ref_mean ref_std target_low ∧
      riskSkoru ort std trend n ref_mean ref_std target_low ≤ 100 := by
  unfold riskSkoru
  constructor
  · calc (0 : ℤ) = roundHalfEven 0 := by norm_num [roundHalfEven]
      _ ≤ _ := roundHalfEven_mono (score_row_nonneg ort std trend n ref_mean ref_std target_low)
  · calc roundHalfEven (score_row ort std trend n ref_mean ref_std target_low)
        ≤ roundHalfEven 100 :=
          roundHalfEven_mono (score_row_le_100 ort std trend n ref_mean ref_std target_low)
      _ = 100 := by norm_num [roundHalfEven]

/-- **C2.** The risk score is the sum of the four spec sub-scores (level,
variability, trend, sample penalties as written in the spec), clamped to
`[0, 100]` and rounded to an integer exactly once, at the final step. -/
theorem risk_score_is_clamped_rounded_sum (ort std : ℚ) (trend : Option ℚ)
    (n : ℕ) (ref_mean ref_std target_low : ℚ) :
    riskSkoru ort std trend n ref_mean ref_std target_low =
      roundHalfEven (max 0 (min 100
        (spec_levelPenalty ort ref_std target_low + spec_varPenalty std ref_std +
          spec_trendPenalty trend + spec_samplePenalty n))) := by
  unfold riskSkoru
  rw [score_row_decomp]

/-! ## Monotonicity of the scorer -/

lemma levelDenom_pos (ref_std : ℚ) : 0 < levelDenom ref_std :=
  lt_of_lt_of_le one_pos (le_max_left 1 ref_std)

lemma varDenom_pos (ref_std : ℚ) : 0 < varDenom ref_std :=
  lt_of_lt_of_le (by norm_num) (le_max_left (1 / 1000000) ref_std)

lemma spec_levelPenalty_anti {m₁ m₂ : ℚ} (ref_std target_low : ℚ)
    (h : m₂ ≤ m₁) :
    spec_levelPenalty m₁ ref_std target_low ≤ spec_levelPenalty m₂ ref_std target_low := by
  unfold spec_levelPenalty
  refine min_le_min le_rfl (mul_le_mul_of_nonneg_right ?_ (by norm_num))
  have hd : (0 : ℚ) < max 1 ref_std := lt_of_lt_of_le one_pos (le_max_left 1 ref_std)
  exact div_le_div_of_nonneg_right (max_le_max le_rfl (by linarith)) hd.le

lemma spec_varPenalty_mono {s₁ s₂ : ℚ} (ref_std : ℚ) (h : s₁ ≤ s₂) :
    spec_varPenalty s₁ ref_std ≤ spec_varPenalty s₂ ref_std := by
  unfold spec_varPenalty
  refine min_le_min le_rfl (mul_le_mul_of_nonneg_right ?_ (by norm_num))
  have hd : (0 : ℚ) < max (1 / 1000000) ref_std :=
    lt_of_lt_of_le (by norm_num) (le_max_left (1 / 1000000) ref_std)
  exact div_le_div_of_nonneg_right h hd.le

lemma spec_trendPenalty_anti {t₁ t₂ : ℚ} (h : t₂ ≤ t₁) :
    spec_trendPenalty (some t₁) ≤ spec_trendPenalty (some t₂) := by
  unfold spec_trendPenalty
  exact min_le_min le_rfl
    (mul_le_mul_of_nonneg_right (max_le_max le_rfl (by linarith)) (by norm_num))

/-- **C7.** With everything else fixed: decreasing the lot mean never
decreases the risk score; increasing the lot std never decreases it; and
making a defined trend more negative never decreases it. -/
theorem risk_score_monotone (ort std : ℚ) (trend : Option ℚ) (n : ℕ)
    (ref_mean ref_std target_low m₁ m₂ s₁ s₂ t₁ t₂ : ℚ) :
    (m₂ ≤ m₁ →
      riskSkoru m₁ std trend n ref_mean ref_std target_low ≤
        riskSkoru m₂ std trend n ref_mean ref_std target_low) ∧
    (s₁ ≤ s₂ →
      riskSkoru ort s₁ trend n ref_mean ref_std target_low ≤
        riskSkoru ort s₂ trend n ref_mean ref_std target_low) ∧
    (t₂ ≤ t₁ →
      riskSkoru ort std (some t₁) n ref_mean ref_std target_low ≤
        riskSkoru ort std (some t₂) n ref_mean ref_std target_low) := by
  refine ⟨fun h => ?_, fun h => ?_, fun h => ?_⟩ <;>
    · unfold riskSkoru
      apply roundHalfEven_mono
      rw [score_row_decomp, score_row_decomp]
      refine max_le_max le_rfl (min_le_min le_rfl ?_)
      first
      | exact add_le_add (add_le_add (add_le_add
          (spec_levelPenalty_anti ref_std target_low h) le_rfl) le_rfl) le_rfl
      | exact add_le_add (add_le_add (add_le_add le_rfl
          (spec_varPenalty_mono ref_std h)) le_rfl) le_rfl
      | exact add_le_add (add_le_add (add_le_add le_rfl le_rfl)
          (spec_trendPenalty_anti h)) le_rfl

/-- **C10.** The global reference mean never influences any output: two
scorer runs differing only in `ref_mean` produce the same risk score, the
same status label and the same recommendation. -/
theorem ref_mean_never_influences_output (ort std : ℚ) (trend : Option ℚ)
    (n : ℕ) (ref_std target_low m₁ m₂ : ℚ) :
    riskSkoru ort std trend n m₁ ref_std target_low =
        riskSkoru ort std trend n m₂ ref_std target_low ∧
      label (riskSkoru ort std trend n m₁ ref_std target_low) =
        label (riskSkoru ort std trend n m₂ ref_std target_low) ∧
      suggestion n (riskSkoru ort std trend n m₁ ref_std target_low) trend =
        suggestion n (riskSkoru ort std trend n m₂ ref_std target_low) trend :=
  ⟨rfl, rfl, rfl⟩

/-- **C6.** Degenerate statistics never abort: a single-sample lot gets
std exactly `0.0`; the global `ref_std` falls back to exactly `1.0` when
the clean table has fewer than 2 rows; and the scorer's two divisors,
`max(1, ref_std)` and `max(1e-6, ref_std)`, are strictly positive for
every reference std, so no division by zero occurs in `score_row`. -/
theorem degenerate_stats_guarded (x : ℚ) (strengths : List ℚ) (ref_std : ℚ) :
    lotSTD [x] = 0 ∧
      (strengths.length < 2 → refStd strengths = 1) ∧
      0 < levelDenom ref_std ∧ 0 < varDenom ref_std := by
  refine ⟨?_, fun h => ?_, levelDenom_pos ref_std, varDenom_pos ref_std⟩
  · simp [lotSTD, sampleStd]
  · rw [refStd, if_neg (by omega)]

/-- Witness for C6 at concrete inputs. -/
theorem degenerate_stats_guarded_witness :
    lotSTD [(5 : ℚ)] = 0 ∧ refStd [] = 1 ∧
      0 < levelDenom 0 ∧ 0 < varDenom 0 := by
  obtain ⟨h1, h2, h3, h4⟩ := degenerate_stats_guarded (5 : ℚ) [] 0
  exact ⟨h1, h2 (by decide), h3, h4⟩

/-- **C8.** The recommendation checks its cases first-match-wins in the
order: `score ≥ 60 ∧ n = 1`; then `score ≥ 60` with a defined trend
`< −2`; then `score ≥ 60`; then `30 ≤ score < 60`; then `score < 30` —
in particular the `n = 1` check wins over the trend check. -/
theorem suggestion_case_order (n : ℕ) (score : ℤ) (trend : Option ℚ) (t : ℚ) :
    (score ≥ 60 → n = 1 →
      suggestion n score trend = "Tek ölçüm: yeniden ölçüm + proses kontrol önerilir.") ∧
    (score ≥ 60 → n ≠ 1 → trend = some t → t < -2 →
      suggestion n score trend =
        "Düşüş trendi: proses/ısıl işlem parametrelerini kontrol et, yeniden ölçüm yap.") ∧
    (score ≥ 60 → n ≠ 1 → (∀ u, trend = some u → ¬u < -2) →
      suggestion n score trend = "Yeniden ölçüm + proses kontrol önerilir.") ∧
    (30 ≤ score → score < 60 →
      suggestion n score trend =
        "Takip önerilir (ek ölçüm planla, sapma artarsa aksiyon al).") ∧
    (score < 30 → suggestion n score trend = "Normal üretime devam.") := by
  refine ⟨fun hs hn => ?_, fun hs hn ht htl => ?_, fun hs hn ht => ?_,
    fun h30 h60 => ?_, fun h30 => ?_⟩
  · unfold suggestion; rw [if_pos hs, if_pos hn]
  · subst ht
    unfold suggestion; rw [if_pos hs, if_neg hn, if_pos (by simpa using htl)]
  · unfold suggestion; rw [if_pos hs, if_neg hn, if_neg ?_]
    cases trend with
    | none => simp
    | some u => simpa using ht u rfl
  · unfold suggestion; rw [if_neg (by omega), if_pos h30]
  · unfold suggestion; rw [if_neg (by omega), if_neg (by omega)]

/-- Witness for C8: all five cases at concrete inputs. -/
theorem suggestion_case_order_witness :
    suggestion 1 70 (some (-5)) = "Tek ölçüm: yeniden ölçüm + proses kontrol önerilir." ∧
    suggestion 3 70 (some (-5)) =
      "Düşüş trendi: proses/ısıl işlem parametrelerini kontrol et, yeniden ölçüm yap." ∧
    suggestion 3 70 none = "Yeniden ölçüm + proses kontrol önerilir." ∧
    suggestion 3 45 (some (-5)) =
      "Takip önerilir (ek ölçüm planla, sapma artarsa aksiyon al)." ∧
    suggestion 3 10 (some (-5)) = "Normal üretime devam." :=
  ⟨(suggestion_case_order 1 70 (some (-5)) (-5)).1 (by decide) rfl,
   (suggestion_case_order 3 70 (some (-5)) (-5)).2.1 (by decide) (by decide) rfl (by norm_num),
   (suggestion_case_order 3 70 none (-5)).2.2.1 (by decide) (by decide) (fun u hu => by cases hu),
   (suggestion_case_order 3 45 (some (-5)) (-5)).2.2.2.1 (by decide) (by decide),
   (suggestion_case_order 3 10 (some (-5)) (-5)).2.2.2.2 (by decide)⟩

/-! ## Ingestion: validation and row filtering -/

/-- **C3 counterexample.** Headers `LOT` and `PARTI` both resolve to the
canonical `LOT`: no required canonical column is absent after
normalization and synonym mapping (`missing = []` at app.py line 34), yet
ingestion still aborts — `df["LOT"]` is a two-column DataFrame and
`.astype(str).str` raises at app.py line 43 — refuting both "fails iff a
required canonical column is absent" and "no other ingestion condition
aborts the pipeline". -/
theorem duplicate_canonical_headers_abort :
    missingCols ["LOT", "PARTI", "TARIH", "CEKME_DAYANIMI"] = [] ∧
      load_data ["LOT", "PARTI", "TARIH", "CEKME_DAYANIMI"] [] =
        .error .duplicateRequiredColumn :=
  ⟨by decide, rfl⟩

/-- **C3 (amended).** Ingestion succeeds iff, after case/whitespace
normalization and synonym mapping, every required canonical column is
present exactly once.  An absent required column is reported first, by
the `ValueError` naming exactly the missing canonical columns together
with the full required set; when none is missing but some required
canonical column is produced by more than one raw header, the coercion
lines abort with the untyped pandas exception; nothing else aborts. -/
theorem ingestion_error_characterization (cols : List String) (rows : List RawRow) :
    ((∃ out, load_data cols rows = .ok out) ↔
      missingCols cols = [] ∧ dupRequiredCols cols = []) ∧
    (∀ e, load_data cols rows = .error (.missingColumns e) ↔
      missingCols cols ≠ [] ∧ e = ⟨missingCols cols, REQUIRED_COLS⟩) ∧
    (load_data cols rows = .error .duplicateRequiredColumn ↔
      missingCols cols = [] ∧ dupRequiredCols cols ≠ []) ∧
    (∀ c, c ∈ missingCols cols ↔ c ∈ REQUIRED_COLS ∧ c ∉ normalizeCols cols) ∧
    (∀ c, c ∈ dupRequiredCols cols ↔
      c ∈ REQUIRED_COLS ∧ 1 < (normalizeCols cols).count c) := by
  have hkey1 : ∀ c, c ∈ missingCols cols ↔ c ∈ REQUIRED_COLS ∧ c ∉ normalizeCols cols := by
    intro c
    simp [missingCols, List.mem_filter]
  have hkey2 : ∀ c, c ∈ dupRequiredCols cols ↔
      c ∈ REQUIRED_COLS ∧ 1 < (normalizeCols cols).count c := by
    intro c
    simp [dupRequiredCols, List.mem_filter]
  by_cases h : (missingCols cols).isEmpty
  · by_cases h' : (dupRequiredCols cols).isEmpty
    · have he : load_data cols rows = .ok (List.mergeSort (rows.filterMap coerceRow) rowLE) := by
        simp [load_data, h, h']
      refine ⟨⟨fun _ => ⟨List.isEmpty_iff.mp h, List.isEmpty_iff.mp h'⟩, fun _ => ⟨_, he⟩⟩,
        fun e => ⟨fun he' => ?_, fun ⟨hne, _⟩ => absurd (List.isEmpty_iff.mp h) hne⟩,
        ⟨fun he' => ?_, fun ⟨_, hne⟩ => absurd (List.isEmpty_iff.mp h') hne⟩, hkey1, hkey2⟩
      · rw [he] at he'
        cases he'
      · rw [he] at he'
        cases he'
    · have he : load_data cols rows = .error .duplicateRequiredColumn := by
        simp [load_data, h, h']
      refine ⟨⟨fun ⟨out, ho⟩ => ?_, fun ⟨_, hd⟩ => absurd (List.isEmpty_iff.mpr hd) h'⟩,
        fun e => ⟨fun he' => ?_, fun ⟨hne, _⟩ => absurd (List.isEmpty_iff.mp h) hne⟩,
        ⟨fun _ => ⟨List.isEmpty_iff.mp h, fun hd => h' (List.isEmpty_iff.mpr hd)⟩,
          fun _ => he⟩, hkey1, hkey2⟩
      · rw [he] at ho
        cases ho
      · rw [he] at he'
        injection he' with h₂
        cases h₂
  · have hne : missingCols cols ≠ [] := fun hnil => h (List.isEmpty_iff.mpr hnil)
    have he : load_data cols rows =
        .error (.missingColumns ⟨missingCols cols, REQUIRED_COLS⟩) := by
      simp [load_data, h]
    refine ⟨⟨fun ⟨out, ho⟩ => ?_, fun ⟨hm, _⟩ => absurd hm hne⟩,
      fun e => ⟨fun he' => ?_, fun ⟨_, hee⟩ => by rw [he, hee]⟩,
      ⟨fun he' => ?_, fun ⟨hm, _⟩ => absurd hm hne⟩, hkey1, hkey2⟩
    · rw [he] at ho
      cases ho
    · rw [he] at he'
      injection he' with h₂
      injection h₂ with h₃
      exact ⟨hne, h₃.symm⟩
    · rw [he] at he'
      injection he' with h₂
      cases h₂

/-- Witness for C3 (amended) at concrete inputs: a complete header set
succeeds; a header set resolving only `LOT` (via the `PARTI` synonym)
raises the missing-columns error naming `TARIH` and `CEKME_DAYANIMI`;
and the duplicate pair `LOT`+`PARTI` with all columns present raises the
coercion-line exception. -/
theorem ingestion_error_characterization_witness :
    (∃ out, load_data [" lot no ", "TARİH", "ÇEKME_DAYANIMI"] [] = .ok out) ∧
      load_data ["PARTI"] [] =
        .error (.missingColumns ⟨["TARIH", "CEKME_DAYANIMI"], REQUIRED_COLS⟩) ∧
      load_data ["LOT", "PARTI", "TARIH", "CEKME_DAYANIMI"] [] =
        .error .duplicateRequiredColumn :=
  ⟨(ingestion_error_characterization [" lot no ", "TARİH", "ÇEKME_DAYANIMI"] []).1.mpr
      ⟨by decide, by decide⟩,
   ((ingestion_error_characterization ["PARTI"] []).2.1
      ⟨["TARIH", "CEKME_DAYANIMI"], REQUIRED_COLS⟩).mpr ⟨by decide, by decide⟩,
   (ingestion_error_characterization ["LOT", "PARTI", "TARIH", "CEKME_DAYANIMI"] []).2.2.1.mpr
      ⟨by decide, by decide⟩⟩

/-- A row survives the dropna filter iff all three coerced fields are
present; `filterMap coerceRow` therefore keeps exactly those rows. -/
lemma length_filterMap_coerceRow (rows : List RawRow) :
    (rows.filterMap coerceRow).length =
      (rows.filter (fun r => r.lot.isSome && r.tarih.isSome && r.dayanim.isSome)).length := by
  induction rows with
  | nil => rfl
  | cons r t ih =>
    obtain ⟨lo, ta, da⟩ := r
    cases lo <;> cases ta <;> cases da <;>
      simp [List.filterMap_cons, List.filter_cons, coerceRow, ih]

/-- **C4 counterexample.** A row whose `LOT` cell is a whitespace-only
string is *not* dropped: `dropna` only removes null values and the trim
happens afterwards (app.py lines 42–43), so the row survives with an
*empty* trimmed lot identifier — refuting both "rows whose lot identifier
is empty after trimming are dropped" and "every surviving row has a
non-empty trimmed lot_id". -/
theorem whitespace_lot_id_row_survives :
    load_data ["LOT", "TARIH", "CEKME_DAYANIMI"]
        [{ lot := some "   ", tarih := some 0, dayanim := some 5 }] =
      .ok [{ lot := "", tarih := 0, dayanim := 5 }] ∧
    ({ lot := "", tarih := 0, dayanim := 5 } : CleanRow).lot = "" := by
  constructor
  · have h1 : missingCols ["LOT", "TARIH", "CEKME_DAYANIMI"] = [] := by decide
    have h3 : dupRequiredCols ["LOT", "TARIH", "CEKME_DAYANIMI"] = [] := by decide
    have h2 : List.filterMap coerceRow
        [{ lot := some "   ", tarih := some 0, dayanim := some 5 }] =
        [({ lot := "", tarih := 0, dayanim := 5 } : CleanRow)] := by decide
    rw [load_data]
    simp only [h1, h3, h2, List.isEmpty_nil, if_true, List.mergeSort_singleton]
  · rfl

/-- **C4 (amended).** During normalization every row with an absent
(null) date, strength or lot cell is silently dropped — no error, no
per-row diagnostic — and every surviving clean row is the stripped image
of an input row whose three fields were all present (so it has a
present — though possibly empty — trimmed lot identifier, a valid
timestamp, and a numeric strength). -/
theorem rows_with_missing_fields_dropped (cols : List String) (rows : List RawRow)
    (out : List CleanRow) (h : load_data cols rows = .ok out) :
    out.length =
        (rows.filter (fun r => r.lot.isSome && r.tarih.isSome && r.dayanim.isSome)).length ∧
      (∀ c ∈ out, ∃ r ∈ rows, ∃ l, r.lot = some l ∧ r.tarih = some c.tarih ∧
        r.dayanim = some c.dayanim ∧ c.lot = pyStrip l) ∧
      (∀ r ∈ rows, ∀ l t s, r.lot = some l → r.tarih = some t → r.dayanim = some s →
        (⟨pyStrip l, t, s⟩ : CleanRow) ∈ out) := by
  have hout : out = List.mergeSort (rows.filterMap coerceRow) rowLE := by
    rw [load_data] at h
    split at h
    · split at h
      · cases h
        rfl
      · cases h
    · cases h
  subst hout
  refine ⟨?_, fun c hc => ?_, fun r hr l t s hl ht hs => ?_⟩
  · rw [List.length_mergeSort]
    exact length_filterMap_coerceRow rows
  · rw [List.mem_mergeSort] at hc
    obtain ⟨r, hr, hcr⟩ := List.mem_filterMap.mp hc
    obtain ⟨lo, ta, da⟩ := r
    cases lo <;> cases ta <;> cases da <;> simp [coerceRow] at hcr
    subst hcr
    exact ⟨_, hr, _, rfl, rfl, rfl, rfl⟩
  · rw [List.mem_mergeSort]
    refine List.mem_filterMap.mpr ⟨r, hr, ?_⟩
    obtain ⟨lo, ta, da⟩ := r
    cases hl
    cases ht
    cases hs
    rfl

/-- Witness for C4 (amended) at a concrete input: one complete row, one
row with an unparseable date, one with a non-numeric strength, one with
a null lot. -/
theorem rows_with_missing_fields_dropped_witness :
    ([({ lot := "A", tarih := 3, dayanim := 7 } : CleanRow)].length =
        ([({ lot := some " A ", tarih := some 3, dayanim := some 7 } : RawRow),
          { lot := some "B", tarih := none, dayanim := some 8 },
          { lot := some "C", tarih := some 4, dayanim := none },
          { lot := none, tarih := some 5, dayanim := some 9 }].filter
            (fun r => r.lot.isSome && r.tarih.isSome && r.dayanim.isSome)).length) ∧
      (∀ c ∈ [({ lot := "A", tarih := 3, dayanim := 7 } : CleanRow)],
        ∃ r ∈ [({ lot := some " A ", tarih := some 3, dayanim := some 7 } : RawRow),
          { lot := some "B", tarih := none, dayanim := some 8 },
          { lot := some "C", tarih := some 4, dayanim := none },
          { lot := none, tarih := some 5, dayanim := some 9 }],
          ∃ l, r.lot = some l ∧ r.tarih = some c.tarih ∧
            r.dayanim = some c.dayanim ∧ c.lot = pyStrip l) ∧
      (∀ r ∈ [({ lot := some " A ", tarih := some 3, dayanim := some 7 } : RawRow),
          { lot := some "B", tarih := none, dayanim := some 8 },
          { lot := some "C", tarih := some 4, dayanim := none },
          { lot := none, tarih := some 5, dayanim := some 9 }],
        ∀ l t s, r.lot = some l → r.tarih = some t → r.dayanim = some s →
          (⟨pyStrip l, t, s⟩ : CleanRow) ∈ [({ lot := "A", tarih := 3, dayanim := 7 } : CleanRow)]) :=
  rows_with_missing_fields_dropped ["LOT", "TARIH", "CEKME_DAYANIMI"] _ _ (by
    have h1 : missingCols ["LOT", "TARIH", "CEKME_DAYANIMI"] = [] := by decide
    have h3 : dupRequiredCols ["LOT", "TARIH", "CEKME_DAYANIMI"] = [] := by decide
    have h2 : List.filterMap coerceRow
        [({ lot := some " A ", tarih := some 3, dayanim := some 7 } : RawRow),
          { lot := some "B", tarih := none, dayanim := some 8 },
          { lot := some "C", tarih := some 4, dayanim := none },
          { lot := none, tarih := some 5, dayanim := some 9 }] =
        [({ lot := "A", tarih := 3, dayanim := 7 } : CleanRow)] := by decide
    rw [load_data]
    simp only [h1, h3, h2, List.isEmpty_nil, if_true, List.mergeSort_singleton])

/-! ## Sorting: the clean table order -/

lemma lexLt_nil_right (as : List Char) : lexLt as [] = false := by
  cases as <;> rfl

lemma lexLt_cons_iff (a b : Char) (as bs : List Char) :
    lexLt (a :: as) (b :: bs) = true ↔ a < b ∨ (a = b ∧ lexLt as bs = true) := by
  show (if a < b then true else if b < a then false else lexLt as bs) = true ↔ _
  split_ifs with h1 h2
  · simp [h1]
  · simp only [Bool.false_eq_true, false_iff]
    rintro (h | ⟨rfl, -⟩)
    · exact absurd h (asymm h2)
    · exact absurd h2 (lt_irrefl a)
  · have he : a = b := le_antisymm (not_lt.mp h2) (not_lt.mp h1)
    simp [he, h1]

lemma lexLt_trans : ∀ {as bs cs : List Char},
    lexLt as bs = true → lexLt bs cs = true → lexLt as cs = true := by
  intro as
  induction as with
  | nil =>
    intro bs cs h₁ h₂
    cases bs with
    | nil => cases h₁
    | cons b bs =>
      cases cs with
      | nil => rw [lexLt_nil_right] at h₂; cases h₂
      | cons c cs => rfl
  | cons a as ih =>
    intro bs cs h₁ h₂
    cases bs with
    | nil => rw [lexLt_nil_right] at h₁; cases h₁
    | cons b bs =>
      cases cs with
      | nil => rw [lexLt_nil_right] at h₂; cases h₂
      | cons c cs =>
        rw [lexLt_cons_iff] at h₁ h₂ ⊢
        rcases h₁ with h | ⟨rfl, h⟩ <;> rcases h₂ with h' | ⟨rfl, h'⟩
        · exact Or.inl (lt_trans h h')
        · exact Or.inl h
        · exact Or.inl h'
        · exact Or.inr ⟨rfl, ih h h'⟩

lemma lexLt_connex (as bs : List Char) :
    lexLt as bs = true ∨ as = bs ∨ lexLt bs as = true := by
  induction as generalizing bs with
  | nil =>
    cases bs with
    | nil => exact Or.inr (Or.inl rfl)
    | cons b bs => exact Or.inl rfl
  | cons a as ih =>
    cases bs with
    | nil => exact Or.inr (Or.inr rfl)
    | cons b bs =>
      rcases lt_trichotomy a b with h | h | h
      · exact Or.inl ((lexLt_cons_iff a b as bs).mpr (Or.inl h))
      · subst h
        rcases ih bs with h' | h' | h'
        · exact Or.inl ((lexLt_cons_iff a a as bs).mpr (Or.inr ⟨rfl, h'⟩))
        · exact Or.inr (Or.inl (by rw [h']))
        · exact Or.inr (Or.inr ((lexLt_cons_iff a a bs as).mpr (Or.inr ⟨rfl, h'⟩)))
      · exact Or.inr (Or.inr ((lexLt_cons_iff b a bs as).mpr (Or.inl h)))

lemma string_eq_of_data_eq {a b : String} (h : a.data = b.data) : a = b := by
  cases a
  cases b
  exact congrArg String.mk h

lemma rowLE_trans (a b c : CleanRow)
    (h₁ : rowLE a b = true) (h₂ : rowLE b c = true) : rowLE a c = true := by
  simp only [rowLE, lotLt, Bool.or_eq_true, Bool.and_eq_true, decide_eq_true_eq] at h₁ h₂ ⊢
  rcases h₁ with h₁ | ⟨he₁, ht₁⟩ <;> rcases h₂ with h₂ | ⟨he₂, ht₂⟩
  · exact Or.inl (lexLt_trans h₁ h₂)
  · exact Or.inl (he₂ ▸ h₁)
  · exact Or.inl (he₁ ▸ h₂)
  · exact Or.inr ⟨he₁.trans he₂, ht₁.trans ht₂⟩

lemma rowLE_total (a b : CleanRow) : (rowLE a b || rowLE b a) = true := by
  simp only [rowLE, lotLt, Bool.or_eq_true, Bool.and_eq_true, decide_eq_true_eq]
  rcases lexLt_connex a.lot.data b.lot.data with h | h | h
  · exact Or.inl (Or.inl h)
  · have he : a.lot = b.lot := string_eq_of_data_eq h
    rcases le_total a.tarih b.tarih with ht | ht
    · exact Or.inl (Or.inr ⟨he, ht⟩)
    · exact Or.inr (Or.inr ⟨he.symm, ht⟩)
  · exact Or.inr (Or.inl h)

/-- **C9.** The clean table is sorted ascending by (lot, date) — pairwise,
each earlier row is lexicographically no later than each later row — and
rows with equal (lot, date) keys keep their original relative order:
any two key-tied surviving rows appear in the output in the same order
as in the coerced input. -/
theorem clean_table_sorted_and_stable (cols : List String) (rows : List RawRow)
    (out : List CleanRow) (h : load_data cols rows = .ok out) :
    out.Pairwise
        (fun a b => lotLt a.lot b.lot = true ∨ (a.lot = b.lot ∧ a.tarih ≤ b.tarih)) ∧
      (∀ a b : CleanRow, a.lot = b.lot → a.tarih = b.tarih →
        [a, b].Sublist (rows.filterMap coerceRow) → [a, b].Sublist out) := by
  have hout : out = List.mergeSort (rows.filterMap coerceRow) rowLE := by
    rw [load_data] at h
    split at h
    · split at h
      · cases h
        rfl
      · cases h
    · cases h
  subst hout
  constructor
  · refine List.Pairwise.imp ?_
      (List.sorted_mergeSort rowLE_trans rowLE_total (rows.filterMap coerceRow))
    intro a b hab
    simpa [rowLE, lotLt, Bool.or_eq_true, Bool.and_eq_true, decide_eq_true_eq] using hab
  · intro a b hl ht hsub
    refine List.sublist_mergeSort rowLE_trans rowLE_total ?_ hsub
    refine List.pairwise_pair.mpr ?_
    show rowLE a b = true
    simp [rowLE, lotLt, hl, ht]

/-- Witness for C9: two rows with identical (LOT, TARIH) keys stay in
input order in the clean table. -/
theorem clean_table_sorted_and_stable_witness :
    ([({ lot := "A", tarih := 1, dayanim := 5 } : CleanRow),
        { lot := "A", tarih := 1, dayanim := 6 }].Pairwise
        (fun a b => lotLt a.lot b.lot = true ∨ (a.lot = b.lot ∧ a.tarih ≤ b.tarih))) ∧
      [({ lot := "A", tarih := 1, dayanim := 5 } : CleanRow),
        { lot := "A", tarih := 1, dayanim := 6 }].Sublist
        [({ lot := "A", tarih := 1, dayanim := 5 } : CleanRow),
          { lot := "A", tarih := 1, dayanim := 6 }] := by
  have h2 : List.filterMap coerceRow
      [({ lot := some "A", tarih := some 1, dayanim := some 5 } : RawRow),
        { lot := some "A", tarih := some 1, dayanim := some 6 }] =
      [({ lot := "A", tarih := 1, dayanim := 5 } : CleanRow),
        { lot := "A", tarih := 1, dayanim := 6 }] := by decide
  have hsorted : List.Pairwise (fun a b => rowLE a b = true)
      [({ lot := "A", tarih := 1, dayanim := 5 } : CleanRow),
        { lot := "A", tarih := 1, dayanim := 6 }] := by
    refine List.pairwise_pair.mpr ?_
    simp [rowLE, lotLt]
  have h : load_data ["LOT", "TARIH", "CEKME_DAYANIMI"]
      [({ lot := some "A", tarih := some 1, dayanim := some 5 } : RawRow),
        { lot := some "A", tarih := some 1, dayanim := some 6 }] =
      .ok [({ lot := "A", tarih := 1, dayanim := 5 } : CleanRow),
        { lot := "A", tarih := 1, dayanim := 6 }] := by
    have h1 : missingCols ["LOT", "TARIH", "CEKME_DAYANIMI"] = [] := by decide
    have h3 : dupRequiredCols ["LOT", "TARIH", "CEKME_DAYANIMI"] = [] := by decide
    rw [load_data]
    simp only [h1, h3, h2, List.isEmpty_nil, if_true]
    rw [List.mergeSort_of_sorted hsorted]
  obtain ⟨hp, hstable⟩ := clean_table_sorted_and_stable _ _ _ h
  exact ⟨hp, hstable _ _ rfl rfl (h2 ▸ List.Sublist.refl _)⟩

/-- Witness for C7: concrete monotonicity instances. -/
theorem risk_score_monotone_witness :
    (riskSkoru 895 10 (some (-1)) 3 0 20 900 ≤ riskSkoru 890 10 (some (-1)) 3 0 20 900) ∧
      (riskSkoru 895 10 (some (-1)) 3 0 20 900 ≤ riskSkoru 895 12 (some (-1)) 3 0 20 900) ∧
      (riskSkoru 895 10 (some (-1)) 3 0 20 900 ≤ riskSkoru 895 10 (some (-3)) 3 0 20 900) :=
  ⟨(risk_score_monotone 895 10 (some (-1)) 3 0 20 900 895 890 10 12 (-1) (-3)).1
      (by norm_num),
   (risk_score_monotone 895 10 (some (-1)) 3 0 20 900 895 890 10 12 (-1) (-3)).2.1
      (by norm_num),
   (risk_score_monotone 895 10 (some (-1)) 3 0 20 900 895 890 10 12 (-1) (-3)).2.2
      (by norm_num)⟩

/-! ## Trend: when the slope is defined, its denominator is positive -/

/-- The denominator of the least-squares slope: `n·Σx² − (Σx)²`. -/
def slopeDenom (xs : List ℚ) : ℚ :=
  (xs.length : ℚ) * (xs.map (fun x => x ^ 2)).sum - xs.sum ^ 2

lemma sum_map_sub_sq (a : ℚ) (xs : List ℚ) :
    (xs.map (fun b => (a - b) ^ 2)).sum =
      (xs.length : ℚ) * a ^ 2 - 2 * a * xs.sum + (xs.map (fun b => b ^ 2)).sum := by
  induction xs with
  | nil => simp
  | cons b t ih =>
    simp only [List.map_cons, List.sum_cons, List.length_cons, ih]
    push_cast
    ring

lemma slopeDenom_cons (a : ℚ) (xs : List ℚ) :
    slopeDenom (a :: xs) = slopeDenom xs + (xs.map (fun b => (a - b) ^ 2)).sum := by
  simp only [slopeDenom, sum_map_sub_sq, List.map_cons, List.sum_cons, List.length_cons]
  push_cast
  ring

lemma slopeDenom_nonneg (xs : List ℚ) : 0 ≤ slopeDenom xs := by
  induction xs with
  | nil => simp [slopeDenom]
  | cons a t ih =>
    rw [slopeDenom_cons]
    have hs : 0 ≤ (t.map (fun b => (a - b) ^ 2)).sum :=
      List.sum_nonneg (by
        intro y hy
        obtain ⟨b, -, rfl⟩ := List.mem_map.mp hy
        positivity)
    linarith

lemma slopeDenom_pos {xs : List ℚ} {a b : ℚ} (ha : a ∈ xs) (hb : b ∈ xs)
    (hab : a ≠ b) : 0 < slopeDenom xs := by
  induction xs with
  | nil => cases ha
  | cons x t ih =>
    rw [slopeDenom_cons]
    have hs : ∀ c ∈ t, (0 : ℚ) ≤ (x - c) ^ 2 := fun c _ => sq_nonneg _
    have hsum : ∀ c ∈ t, c ≠ x → 0 < (t.map (fun y => (x - y) ^ 2)).sum := by
      intro c hc hcx
      have h1 : (x - c) ^ 2 ∈ t.map (fun y => (x - y) ^ 2) :=
        List.mem_map.mpr ⟨c, hc, rfl⟩
      have h2 : (x - c) ^ 2 ≤ (t.map (fun y => (x - y) ^ 2)).sum :=
        List.single_le_sum (by
          intro y hy
          obtain ⟨d, -, rfl⟩ := List.mem_map.mp hy
          positivity) _ h1
      have h3 : 0 < (x - c) ^ 2 :=
        lt_of_le_of_ne (sq_nonneg _)
          (Ne.symm (pow_ne_zero 2 (sub_ne_zero.mpr (fun hxc => hcx (by rw [hxc])))))
      linarith
    rcases List.mem_cons.mp ha with rfl | ha' <;> rcases List.mem_cons.mp hb with rfl | hb'
    · exact absurd rfl hab
    · have := hsum b hb' (fun hba => hab hba.symm)
      linarith [slopeDenom_nonneg t]
    · have := hsum a ha' hab
      linarith [slopeDenom_nonneg t]
    · have hnn : 0 ≤ (t.map (fun y => (x - y) ^ 2)).sum :=
        List.sum_nonneg (by
          intro y hy
          obtain ⟨d, -, rfl⟩ := List.mem_map.mp hy
          positivity)
      linarith [ih ha' hb']

lemma foldl_min_mem (t : List ℚ) : ∀ a : ℚ, t.foldl min a = a ∨ t.foldl min a ∈ t := by
  induction t with
  | nil => exact fun a => Or.inl rfl
  | cons b t ih =>
    intro a
    rcases ih (min a b) with h | h
    · rcases min_choice a b with hm | hm
      · exact Or.inl (by rw [List.foldl_cons, h, hm])
      · exact Or.inr (by rw [List.foldl_cons, h, hm]; exact List.mem_cons_self b t)
    · exact Or.inr (List.mem_cons_of_mem b h)

lemma listMin_mem {l : List ℚ} (h : l ≠ []) : listMin l ∈ l := by
  cases l with
  | nil => exact absurd rfl h
  | cons t ts =>
    show ts.foldl min t ∈ t :: ts
    rcases foldl_min_mem ts t with h' | h'
    · rw [h']
      exact List.mem_cons_self t ts
    · exact List.mem_cons_of_mem t h'

lemma zero_mem_elapsedDays {ts : List ℚ} (h : ts ≠ []) : (0 : ℚ) ∈ elapsedDays ts :=
  List.mem_map.mpr ⟨listMin ts, listMin_mem h, by simp⟩

/-- **C5 counterexample.** Two rows of one lot, `1/10000` of a second
apart: `n = 2` and the two elapsed-day values differ (`0` vs
`1/864000000` days), yet `np.allclose(x, 0)` holds under its `1e-8`
absolute tolerance and `slope_days` reports no trend — refuting
"the trend is undefined exactly when `n < 2` or all elapsed-day values
are identical". -/
theorem sub_tolerance_spread_has_no_trend :
    slope_days [({ lot := "A", tarih := 0, dayanim := 1 } : CleanRow),
        { lot := "A", tarih := 1 / 10000, dayanim := 2 }] = none ∧
      ([({ lot := "A", tarih := 0, dayanim := 1 } : CleanRow),
        { lot := "A", tarih := 1 / 10000, dayanim := 2 }]).length = 2 ∧
      elapsedDays (([({ lot := "A", tarih := 0, dayanim := 1 } : CleanRow),
          { lot := "A", tarih := 1 / 10000, dayanim := 2 }]).map (·.tarih)) =
        [0, 1 / 864000000] ∧
      (0 : ℚ) ≠ 1 / 864000000 := by
  have hx : elapsedDays [0, 1 / 10000] = [0, 1 / 864000000] := by
    simp only [elapsedDays, listMin, List.foldl_cons, List.foldl_nil, List.map_cons,
      List.map_nil]
    norm_num
  have hac : allcloseZero (elapsedDays [0, 1 / 10000]) = true := by
    rw [hx]
    simp only [allcloseZero, allcloseAtol, List.all_cons, List.all_nil, Bool.and_true,
      Bool.and_eq_true, decide_eq_true_eq]
    refine ⟨by norm_num, ?_⟩
    rw [abs_le]
    norm_num
  refine ⟨?_, rfl, hx, by norm_num⟩
  rw [slope_days]
  simp only [List.length_cons, List.length_nil, List.map_cons, List.map_nil]
  rw [if_neg (by norm_num), if_pos hac]

/-- **C5 (amended).** The trend is undefined exactly when the lot has
fewer than 2 rows or all elapsed-day values lie within numpy's absolute
tolerance `1e-8` of zero (in particular whenever they are all identical,
since the first elapsed value is 0); in those cases no division is
performed.  When defined, the trend is the ordinary least-squares
first-degree slope of strength against elapsed days, and its denominator
`n·Σx² − (Σx)²` is strictly positive — the division is well-defined. -/
theorem trend_defined_iff_spread (d : List CleanRow) :
    (slope_days d = none ↔
      d.length < 2 ∨ allcloseZero (elapsedDays (d.map (·.tarih))) = true) ∧
    (∀ s, slope_days d = some s →
      s = polyfitSlope (elapsedDays (d.map (·.tarih))) (d.map (·.dayanim)) ∧
        0 < slopeDenom (elapsedDays (d.map (·.tarih)))) := by
  constructor
  · rw [slope_days]
    split_ifs with h1 h2
    · simp [h1]
    · simp [h2]
    · simp [h1, h2]
  · intro s hs
    rw [slope_days] at hs
    split_ifs at hs with h1 h2
    refine ⟨(Option.some.inj hs).symm, ?_⟩
    have hd : d ≠ [] := by
      intro hnil
      rw [hnil] at h1
      exact h1 (by norm_num)
    have hts : d.map (·.tarih) ≠ [] := by
      intro hnil
      exact hd (List.map_eq_nil_iff.mp hnil)
    obtain ⟨x, hx, hxa⟩ : ∃ x ∈ elapsedDays (d.map (·.tarih)), ¬ |x| ≤ allcloseAtol := by
      by_contra hall
      push_neg at hall
      exact h2 (by
        simp only [allcloseZero, List.all_eq_true, decide_eq_true_eq]
        exact hall)
    have hx0 : x ≠ 0 := by
      intro h0
      rw [h0] at hxa
      exact hxa (by rw [abs_zero]; exact le_of_lt (by norm_num [allcloseAtol]))
    exact slopeDenom_pos (zero_mem_elapsedDays hts) hx (fun h0 => hx0 h0.symm)

/-- Witness for C5 (amended): a lot with rows one day apart has the
defined trend `1` strength-unit per day, with positive denominator. -/
theorem trend_defined_iff_spread_witness :
    (1 : ℚ) = polyfitSlope
        (elapsedDays (([({ lot := "A", tarih := 0, dayanim := 1 } : CleanRow),
          { lot := "A", tarih := 86400, dayanim := 2 }]).map (·.tarih)))
        (([({ lot := "A", tarih := 0, dayanim := 1 } : CleanRow),
          { lot := "A", tarih := 86400, dayanim := 2 }]).map (·.dayanim)) ∧
      0 < slopeDenom (elapsedDays (([({ lot := "A", tarih := 0, dayanim := 1 } : CleanRow),
        { lot := "A", tarih := 86400, dayanim := 2 }]).map (·.tarih))) := by
  have hx : elapsedDays (([({ lot := "A", tarih := 0, dayanim := 1 } : CleanRow),
      { lot := "A", tarih := 86400, dayanim := 2 }]).map (·.tarih)) = [0, 1] := by
    simp only [List.map_cons, List.map_nil, elapsedDays, listMin, List.foldl_cons,
      List.foldl_nil]
    norm_num
  refine (trend_defined_iff_spread _).2 1 ?_
  rw [slope_days]
  rw [if_neg (by norm_num)]
  rw [show (([({ lot := "A", tarih := 0, dayanim := 1 } : CleanRow),
      { lot := "A", tarih := 86400, dayanim := 2 }]).map (·.tarih)) = [0, 86400] from rfl] at hx ⊢
  rw [if_neg (by
    rw [hx]
    simp only [allcloseZero, allcloseAtol, List.all_cons, List.all_nil, Bool.and_true,
      Bool.and_eq_true, decide_eq_true_eq, not_and]
    intro
    rw [abs_le]
    norm_num)]
  rw [hx]
  rw [show (([({ lot := "A", tarih := 0, dayanim := 1 } : CleanRow),
      { lot := "A", tarih := 86400, dayanim := 2 }]).map (·.dayanim)) = [1, 2] from rfl]
  rw [polyfitSlope]
  norm_num

end RiskPanel
